import Mathlib

/-!
# Verification of the geocoding pipeline (`geocode.py`)

A shallow embedding of the cascading geocode pipeline:

* `possibly_strip_city`  — the address normalizer;
* `format_esri_batch`    — request-payload construction for the regional
  (STL City ESRI) batch geocoder, with 1-based sequential `OBJECTID`s;
* `geocode_stl_batch_run` / `geocode_stl_run` — the regional batch geocoder,
  parameterised by the provider's response function, sorting responses by
  `ResultID` and batching the input into chunks of 100;
* `geocode_nominatim_single` / `nominatim_batch_next` — the global (OSM
  Nominatim) geocoder; the generator `geocode_nominatim_batch` is modelled
  by the events it executes, so that Python's `next(...)`-once consumption
  pattern (which suspends the generator *before* the post-yield
  `time.sleep(1)`) is captured faithfully;
* `cascade_pair` / `cascade` / `geocode_run` — the cascade coordinator;
* `firstPass` / `apply_result` / `merge_results` / `main_run` — the record
  pipeline (`main`).

Side effects (network calls, sleeping) are represented by an explicit event
trace of type `List Ev`; exceptions by `Except String` with the exception
propagation of the source written out as explicit matches.  JSON numbers
are carried as `Int` — no claim performs arithmetic on coordinates or
scores, so the numeric representation is opaque payload.  `strStrip` and
`strLower` model Python's `strip`/`lower` (they agree on the ASCII data in
the spec and in all inputs considered here).
-/

deriving instance DecidableEq for Except

/-- A JSON value as it appears in one input record.  Numbers are carried as
`Int`; the pipeline never computes with them. -/
inductive Jval where
  | null
  | bool (b : Bool)
  | num (n : Int)
  | str (s : String)
deriving DecidableEq, Repr

/-- A record from the input JSONL file: an ordered mapping (Python `dict`)
of field name to value. -/
abbrev Record := List (String × Jval)

/-- The `GeocodeResult` namedtuple. -/
structure GeocodeResult where
  lat : Int
  lon : Int
  geocode_score : Int
  result_name : String
  geocoder : String
deriving DecidableEq, Repr

/-- `RESERVED_FIELDS` from the source. -/
def RESERVED_FIELDS : List String :=
  ["lat", "lon", "result_name", "geocode_score", "geocoder"]

/-- One element of the ESRI request payload:
`{"attributes": {"OBJECTID": …, "SingleLine": …}}`. -/
structure EsriRecord where
  objectid : Nat
  singleLine : String
deriving DecidableEq, Repr

/-- Observable side effects of one run: a POST to the regional (ESRI)
provider carrying the formatted records, a GET to the global (Nominatim)
provider for one address, and `time.sleep(1)`. -/
inductive Ev where
  | esriCall (records : List EsriRecord)
  | osmCall (address : String)
  | sleep
deriving DecidableEq, Repr

/-- One element of the ESRI response's `locations` list. -/
structure EsriLocation where
  resultID : Nat
  x : Int
  y : Int
  score : Int
  address : String
deriving DecidableEq, Repr

/-- Python's default whitespace for `str.strip()`, restricted to the ASCII
characters that can occur in the data considered here. -/
def isPySpace (c : Char) : Bool := c = ' ' || c = '\t' || c = '\n' || c = '\r'

/-- Python `str.strip()` (no argument): drop leading and trailing
whitespace. -/
def strStrip (s : String) : String :=
  ⟨((s.data.dropWhile isPySpace).reverse.dropWhile isPySpace).reverse⟩

/-- Python `str.lower()` (ASCII; all comparisons in the source involve
ASCII city spellings). -/
def strLower (s : String) : String := ⟨s.data.map Char.toLower⟩

/-- Split a character list at the first occurrence of `sep`:
Python `s.split(sep, 1)` when it produces two pieces, `none` when `sep`
does not occur. -/
def splitOnceAux (sep : Char) : List Char → Option (List Char × List Char)
  | [] => none
  | c :: cs =>
    if c = sep then some ([], cs)
    else
      match splitOnceAux sep cs with
      | none => none
      | some (pre, post) => some (c :: pre, post)

/-- `address.split(",", 1)` as used by `possibly_strip_city`: `some (before,
after)` when the string contains a comma; `none` when it does not (in which
case Python's two-target unpacking raises `ValueError`). -/
def splitFirstComma (s : String) : Option (String × String) :=
  match splitOnceAux ',' s.data with
  | none => none
  | some (pre, post) => some (⟨pre⟩, ⟨post⟩)

/-- `possibly_strip_city`: strip a trailing ", St. Louis"-style locality
(the three accepted spellings of the `match` statement, compared after
strip/lowercase); raises when the address has no comma (the unpacking of
`split(",", 1)` fails). -/
def possibly_strip_city (address : String) : Except String String :=
  match splitFirstComma address with
  | none => .error "ValueError: not enough values to unpack (expected 2, got 1)"
  | some (address_only, city) =>
    if strLower (strStrip city) = "st. louis" ∨ strLower (strStrip city) = "st louis"
        ∨ strLower (strStrip city) = "saint louis" then .ok address_only
    else .ok address

/-- The loop body of `format_esri_batch`: `enumerate(addresses)` carried as
an explicit start index `idx`, `OBJECTID = idx + 1`; an exception from
`possibly_strip_city` propagates. -/
def format_esri_go (idx : Nat) : List String → Except String (List EsriRecord)
  | [] => .ok []
  | a :: rest =>
    match possibly_strip_city a with
    | .error e => .error e
    | .ok s =>
      match format_esri_go (idx + 1) rest with
      | .error e => .error e
      | .ok tail => .ok ({ objectid := idx + 1, singleLine := s } :: tail)

/-- `format_esri_batch`: the semantic content of the JSON request payload
(the `records` list), with sequential 1-based `OBJECTID`s. -/
def format_esri_batch (addresses : List String) : Except String (List EsriRecord) :=
  format_esri_go 0 addresses

/-- The `key=lambda x: x["attributes"]["ResultID"]` sort of the response's
`locations` list.  Python's `sorted` is specified as a stable ascending
sort on the key, which is exactly insertion sort's observable behaviour. -/
def sortByResultID (locs : List EsriLocation) : List EsriLocation :=
  List.insertionSort (fun a b => a.resultID ≤ b.resultID) locs

/-- Build one `GeocodeResult` from one response location
(`geocoder="stl_esri"`). -/
def locToResult (l : EsriLocation) : GeocodeResult :=
  { lat := l.y, lon := l.x, geocode_score := l.score,
    result_name := l.address, geocoder := "stl_esri" }

/-- `geocode_stl_batch`, parameterised by the provider's response function
`esri` (the `locations` list the service returns for a given formatted
request): one POST event, then the response sorted by `ResultID` and mapped
to `GeocodeResult`s. -/
def geocode_stl_batch_run (esri : List EsriRecord → List EsriLocation)
    (addresses : List String) : Except String (List Ev × List GeocodeResult) :=
  match format_esri_batch addresses with
  | .error e => .error e
  | .ok recs => .ok ([Ev.esriCall recs], (sortByResultID (esri recs)).map locToResult)

/-- Recursion core of `batched`, structural on a fuel bound (the fuel is
always at least the list length, so the `0, _ :: _` branch is never
reached). -/
def batchedFuel (n : Nat) : Nat → List α → List (List α)
  | _, [] => []
  | 0, _ :: _ => []
  | fuel + 1, x :: xs => (x :: xs.take (n - 1)) :: batchedFuel n fuel (xs.drop (n - 1))

/-- `itertools.batched(xs, n)` for `n ≥ 1`: consecutive chunks of at most
`n` elements.  (Written with an explicit head so each chunk is nonempty;
for the `n = 100` used by the source this agrees with `take n / drop n`
chunking.) -/
def batched (n : Nat) (xs : List α) : List (List α) := batchedFuel n xs.length xs

/-- The loop of `geocode_stl` over the prepared batches: run
`geocode_stl_batch` on each batch strictly in sequence, yielding each
batch's results before the next batch's POST. -/
def geocode_stl_go (esri : List EsriRecord → List EsriLocation) :
    List (List String) → Except String (List Ev × List GeocodeResult)
  | [] => .ok ([], [])
  | b :: bs =>
    match geocode_stl_batch_run esri b with
    | .error e => .error e
    | .ok (evs, rs) =>
      match geocode_stl_go esri bs with
      | .error e => .error e
      | .ok (evs', rs') => .ok (evs ++ evs', rs ++ rs')

/-- `geocode_stl`: chunk the addresses with `esri_batch_size = 100` and run
the batches in sequence. -/
def geocode_stl_run (esri : List EsriRecord → List EsriLocation)
    (addresses : List String) : Except String (List Ev × List GeocodeResult) :=
  geocode_stl_go esri (batched 100 addresses)

/-- One element of the Nominatim response array (under `format=jsonv2`). -/
structure OsmEntry where
  lat : Int
  lon : Int
  importance : Int
  display_name : String
deriving DecidableEq, Repr

/-- `geocode_nominatim_single`, parameterised by the provider's response
function `osm` (`none` models an empty response array): the returned value,
`geocoder="openstreetmap"`.  The GET request itself is the event
`Ev.osmCall address`, accounted for by the callers below. -/
def geocode_nominatim_single (osm : String → Option OsmEntry) (address : String) :
    Option GeocodeResult :=
  match osm address with
  | none => none
  | some d =>
    some { lat := d.lat, lon := d.lon, geocode_score := d.importance,
           result_name := d.display_name, geocoder := "openstreetmap" }

/-- Full iteration of the generator `geocode_nominatim_batch(addresses)`
(exhausting it): for each address, the request event, the yielded value,
then the post-yield `time.sleep(1)` event. -/
def nominatim_batch_runAll (osm : String → Option OsmEntry) (addresses : List String) :
    List Ev × List (Option GeocodeResult) :=
  (addresses.flatMap (fun a => [Ev.osmCall a, Ev.sleep]),
   addresses.map (geocode_nominatim_single osm))

/-- A single `next()` on a fresh generator `geocode_nominatim(addresses)`
(which is `yield from geocode_nominatim_batch(addresses)`): the generator
body runs up to its first `yield` — one request event, no sleep (the
`time.sleep(1)` sits after the `yield`, and a generator that is never
resumed past its first yield never executes it).  `none` in the second
component models `StopIteration` on an empty input. -/
def nominatim_batch_next (osm : String → Option OsmEntry) (addresses : List String) :
    List Ev × Option (Option GeocodeResult) :=
  match addresses with
  | [] => ([], none)
  | a :: _ => ([Ev.osmCall a], some (geocode_nominatim_single osm a))

/-- The body of the cascade loop in `geocode` for one pair
`(address, result_stl)`: keep the regional result when its `result_name` is
non-empty (Python truthiness of the string), otherwise evaluate
`next(geocode_nominatim([address]))` and emit its value. -/
def cascade_pair (osm : String → Option OsmEntry) (address : String)
    (result_stl : GeocodeResult) : List Ev × Option GeocodeResult :=
  if result_stl.result_name = "" then
    match nominatim_batch_next osm [address] with
    | (evs, some r) => (evs, r)
    | (evs, none) => (evs, none)
  else ([], some result_stl)

/-- The cascade loop of `geocode` over the zipped
`(address, regional result)` pairs: events and yielded values in order. -/
def cascade (osm : String → Option OsmEntry) :
    List (String × GeocodeResult) → List Ev × List (Option GeocodeResult)
  | [] => ([], [])
  | (a, r) :: rest =>
    let (evs, v) := cascade_pair osm a r
    let (evs2, vs) := cascade osm rest
    (evs ++ evs2, v :: vs)

/-- `geocode`: zip the addresses with the stream produced by
`geocode_stl(addresses)` and run the cascade.  The regional generator is
consumed lazily, so each batch's POST happens just before that batch's
pairs are handled; this definition reproduces that interleaving exactly
whenever each batch's response carries one location per submitted address
(every theorem below that touches `geocode_run` is in that regime), and
the yielded values are in every case those of `zip(addresses,
geocode_stl(addresses))`.

`geocode_batch_run` is the per-batch slice of that loop: the batch's POST,
then the cascade over the batch's `(address, regional result)` pairs. -/
def geocode_batch_run (esri : List EsriRecord → List EsriLocation)
    (osm : String → Option OsmEntry) (b : List String) :
    Except String (List Ev × List (Option GeocodeResult)) :=
  match geocode_stl_batch_run esri b with
  | .error e => .error e
  | .ok (evs_b, rs_b) =>
    let (cevs, vs) := cascade osm (b.zip rs_b)
    .ok (evs_b ++ cevs, vs)

/-- The loop of `geocode` over the batches, strictly in sequence. -/
def geocode_go (esri : List EsriRecord → List EsriLocation)
    (osm : String → Option OsmEntry) :
    List (List String) → Except String (List Ev × List (Option GeocodeResult))
  | [] => .ok ([], [])
  | b :: bs =>
    match geocode_batch_run esri osm b with
    | .error e => .error e
    | .ok (evs, vs) =>
      match geocode_go esri osm bs with
      | .error e => .error e
      | .ok (evs', vs') => .ok (evs ++ evs', vs ++ vs')

/-- `geocode` over the whole address sequence: the per-batch slices in
batch order. -/
def geocode_run (esri : List EsriRecord → List EsriLocation)
    (osm : String → Option OsmEntry) (addresses : List String) :
    Except String (List Ev × List (Option GeocodeResult)) :=
  geocode_go esri osm (batched 100 addresses)

/-- `data[k] = v` on a Python dict represented as an ordered association
list: an existing key keeps its position and gets the new value; a new key
is appended at the end. -/
def setField : Record → String → Jval → Record
  | [], k, v => [(k, v)]
  | (k', v') :: rest, k, v =>
    if k' = k then (k, v) :: rest else (k', v') :: setField rest k v

/-- The field names of a record, in order. -/
def Record.keys (r : Record) : List String := r.map Prod.fst

/-- `data[k]` lookup: the value at the first occurrence of `k`, or a
`KeyError`. -/
def getField (r : Record) (k : String) : Except String Jval :=
  match r.lookup k with
  | some v => .ok v
  | none => .error ("KeyError: " ++ k)

/-- The first pass of `main`: per input record, reject it if any reserved
output field is present, otherwise collect `data["location"]` and retain
the record.  Returns (addresses to geocode, retained records). -/
def firstPass : List Record → Except String (List Jval × List Record)
  | [] => .ok ([], [])
  | data :: rest =>
    if RESERVED_FIELDS.any (fun f => f ∈ data.keys) then
      .error "ValueError: Input data contains reserved fields"
    else
      match getField data "location" with
      | .error e => .error e
      | .ok loc =>
        match firstPass rest with
        | .error e => .error e
        | .ok (addrs, outs) => .ok (loc :: addrs, data :: outs)

/-- The body of the second pass of `main` for one record: a `None` result
is skipped (`continue`), otherwise the five reserved fields are set on the
record. -/
def apply_result (data : Record) : Option GeocodeResult → Record
  | none => data
  | some r =>
    setField (setField (setField (setField (setField data
      "lat" (.num r.lat))
      "lon" (.num r.lon))
      "result_name" (.str r.result_name))
      "geocode_score" (.num r.geocode_score))
      "geocoder" (.str r.geocoder)

/-- The second pass of `main`: walk the geocode results positionally
(`enumerate`) over the retained records; records beyond the result stream
are left untouched. -/
def merge_results : List Record → List (Option GeocodeResult) → List Record
  | ds, [] => ds
  | [], _ :: _ => []
  | d :: ds, r :: rs => apply_result d r :: merge_results ds rs

/-- The `location` values must be strings for geocoding; Python would
raise `AttributeError` at the first `.split` on a non-string value. -/
def asStrings : List Jval → Except String (List String)
  | [] => .ok []
  | .str s :: rest =>
    match asStrings rest with
    | .error e => .error e
    | .ok ss => .ok (s :: ss)
  | _ :: _ => .error "AttributeError: object has no attribute split"

/-- `main` (I/O-free core): first pass, then geocoding of the collected
addresses, then the positional merge. -/
def main_run (esri : List EsriRecord → List EsriLocation)
    (osm : String → Option OsmEntry) (records : List Record) :
    Except String (List Ev × List Record) :=
  match firstPass records with
  | .error e => .error e
  | .ok (addrs, output_data) =>
    match asStrings addrs with
    | .error e => .error e
    | .ok addresses =>
      match geocode_run esri osm addresses with
      | .error e => .error e
      | .ok (evs, results) => .ok (evs, merge_results output_data results)

/-- `d ++ reservedOf r` is the record after the second pass sets the five
reserved fields from a present result (the source's five assignments, in
order). -/
def reservedOf (r : GeocodeResult) : Record :=
  [("lat", .num r.lat), ("lon", .num r.lon), ("result_name", .str r.result_name),
   ("geocode_score", .num r.geocode_score), ("geocoder", .str r.geocoder)]

/-- A concrete regional provider that answers every request with one
location per submitted record, every match name empty ("no usable
match"). -/
def esriNoMatch : List EsriRecord → List EsriLocation :=
  fun recs => recs.map (fun r =>
    { resultID := r.objectid, x := 0, y := 0, score := 0, address := "" })

/-- A concrete regional provider that answers every request with one
location per submitted record, echoing the submitted line as the match
name (all matches succeed). -/
def esriEcho : List EsriRecord → List EsriLocation :=
  fun recs => recs.map (fun r =>
    { resultID := r.objectid, x := 0, y := 0, score := 100, address := r.singleLine })

/-- A concrete global provider whose response array is always empty. -/
def osmNone : String → Option OsmEntry := fun _ => none

/-- A concrete global provider that always returns one entry. -/
def osmHit : String → Option OsmEntry :=
  fun _ => some { lat := 7, lon := 8, importance := 1, display_name := "osm hit" }

example : possibly_strip_city "123 Main St, St. Louis" = .ok "123 Main St" := by decide
example : possibly_strip_city "123 Main St, Springfield" = .ok "123 Main St, Springfield" := by decide
example : possibly_strip_city "123 Main St" = .error "ValueError: not enough values to unpack (expected 2, got 1)" := by decide
example : format_esri_batch ["1 A, st louis", "2 B, x"] =
    .ok [⟨1, "1 A"⟩, ⟨2, "2 B, x"⟩] := by decide
example : batched 2 [1, 2, 3, 4, 5] = [[1, 2], [3, 4], [5]] := by decide

/-! ## Helper lemmas -/

theorem batchedFuel_congr (n : Nat) :
    ∀ (f₁ f₂ : Nat) (xs : List α), xs.length ≤ f₁ → xs.length ≤ f₂ →
      batchedFuel n f₁ xs = batchedFuel n f₂ xs := by
  intro f₁
  induction f₁ with
  | zero =>
    intro f₂ xs h₁ _
    have : xs = [] := List.eq_nil_of_length_eq_zero (Nat.le_zero.mp h₁)
    subst this
    cases f₂ <;> rfl
  | succ f ih =>
    intro f₂ xs h₁ h₂
    cases xs with
    | nil => cases f₂ <;> rfl
    | cons x xs =>
      cases f₂ with
      | zero => simp at h₂
      | succ f₂ =>
        simp only [List.length_cons] at h₁ h₂
        simp only [batchedFuel]
        congr 1
        exact ih f₂ (xs.drop (n - 1))
          (by simp only [List.length_drop]; omega)
          (by simp only [List.length_drop]; omega)

theorem batched_nil (n : Nat) : batched n ([] : List α) = [] := rfl

theorem batched_cons (n : Nat) (x : α) (xs : List α) :
    batched n (x :: xs) = (x :: xs.take (n - 1)) :: batched n (xs.drop (n - 1)) := by
  show batchedFuel n (xs.length + 1) (x :: xs) = _
  simp only [batchedFuel]
  congr 1
  exact batchedFuel_congr n xs.length (xs.drop (n - 1)).length (xs.drop (n - 1))
    (by simp only [List.length_drop]; omega) le_rfl

/-- For `n ≥ 1` on a nonempty list, `batched` chunks as `take n / drop n`. -/
theorem batched_ne_nil (n : Nat) (hn : 0 < n) (xs : List α) (hxs : xs ≠ []) :
    batched n xs = xs.take n :: batched n (xs.drop n) := by
  cases xs with
  | nil => exact absurd rfl hxs
  | cons x xs =>
    obtain ⟨m, rfl⟩ : ∃ m, n = m + 1 := ⟨n - 1, by omega⟩
    rw [batched_cons]
    simp

theorem batched_flatten (n : Nat) (xs : List α) : (batched n xs).flatten = xs := by
  suffices h : ∀ (f : Nat) (ys : List α), ys.length ≤ f → (batchedFuel n f ys).flatten = ys from
    h xs.length xs le_rfl
  intro f
  induction f with
  | zero =>
    intro ys h
    have : ys = [] := List.eq_nil_of_length_eq_zero (Nat.le_zero.mp h)
    subst this; rfl
  | succ f ih =>
    intro ys h
    cases ys with
    | nil => rfl
    | cons y ys =>
      simp only [List.length_cons] at h
      simp only [batchedFuel, List.flatten_cons]
      rw [ih (ys.drop (n - 1)) (by simp only [List.length_drop]; omega)]
      simp [List.take_append_drop]

theorem batched_length_le (n : Nat) (hn : 0 < n) (xs : List α) :
    ∀ b ∈ batched n xs, b.length ≤ n := by
  suffices h : ∀ (f : Nat) (ys : List α), ys.length ≤ f → ∀ b ∈ batchedFuel n f ys, b.length ≤ n from
    h xs.length xs le_rfl
  intro f
  induction f with
  | zero =>
    intro ys h b hb
    have : ys = [] := List.eq_nil_of_length_eq_zero (Nat.le_zero.mp h)
    subst this; simp [batchedFuel] at hb
  | succ f ih =>
    intro ys h b hb
    cases ys with
    | nil => simp [batchedFuel] at hb
    | cons y ys =>
      simp only [List.length_cons] at h
      simp only [batchedFuel, List.mem_cons] at hb
      rcases hb with rfl | hb
      · simp only [List.length_cons, List.length_take]
        omega
      · exact ih (ys.drop (n - 1)) (by simp only [List.length_drop]; omega) b hb

/-- 250 addresses are chunked into exactly three batches, of sizes 100,
100, 50. -/
theorem batched_250 (xs : List α) (h : xs.length = 250) :
    (batched 100 xs).map List.length = [100, 100, 50] := by
  have h0 : xs ≠ [] := by intro e; subst e; simp at h
  rw [batched_ne_nil 100 (by omega) xs h0]
  have h1 : (xs.drop 100).length = 150 := by simp [h]
  have h1' : xs.drop 100 ≠ [] := by intro e; rw [e] at h1; simp at h1
  rw [batched_ne_nil 100 (by omega) _ h1']
  have h2 : ((xs.drop 100).drop 100).length = 50 := by simp [h]
  have h2' : (xs.drop 100).drop 100 ≠ [] := by intro e; rw [e] at h2; simp at h2
  rw [batched_ne_nil 100 (by omega) _ h2']
  have h3 : ((xs.drop 100).drop 100).drop 100 = [] :=
    List.eq_nil_of_length_eq_zero (by simp [h])
  rw [h3, batched_nil]
  simp [h, h1, h2]

theorem splitOnceAux_eq_none_iff (sep : Char) :
    ∀ cs : List Char, splitOnceAux sep cs = none ↔ sep ∉ cs := by
  intro cs
  induction cs with
  | nil => simp [splitOnceAux]
  | cons c cs ih =>
    simp only [splitOnceAux]
    by_cases hc : c = sep
    · subst hc
      simp
    · rw [if_neg hc]
      cases h : splitOnceAux sep cs with
      | none =>
        have hmem : sep ∉ cs := ih.mp h
        simp [List.mem_cons, hmem]
        exact fun e => hc e.symm
      | some pr =>
        rcases pr with ⟨pre, post⟩
        constructor
        · intro hfalse; simp at hfalse
        · intro hn
          simp only [List.mem_cons, not_or] at hn
          have := ih.mpr hn.2
          rw [h] at this
          simp at this

theorem splitOnceAux_spec (sep : Char) :
    ∀ (cs pre post : List Char), splitOnceAux sep cs = some (pre, post) →
      cs = pre ++ sep :: post ∧ sep ∉ pre := by
  intro cs
  induction cs with
  | nil => intro pre post h; simp [splitOnceAux] at h
  | cons c cs ih =>
    intro pre post h
    simp only [splitOnceAux] at h
    by_cases hc : c = sep
    · subst hc
      rw [if_pos rfl] at h
      simp only [Option.some.injEq, Prod.mk.injEq] at h
      obtain ⟨rfl, rfl⟩ := h
      simp
    · rw [if_neg hc] at h
      cases h' : splitOnceAux sep cs with
      | none => rw [h'] at h; simp at h
      | some pr =>
        rcases pr with ⟨pre', post'⟩
        rw [h'] at h
        simp only [Option.some.injEq, Prod.mk.injEq] at h
        obtain ⟨h1, h2⟩ := h
        subst h1; subst h2
        obtain ⟨hcs, hpre⟩ := ih pre' post' h'
        constructor
        · simp [hcs]
        · simp only [List.mem_cons, not_or]
          exact ⟨fun e => hc e.symm, hpre⟩

theorem splitFirstComma_none_iff (s : String) :
    splitFirstComma s = none ↔ ',' ∉ s.data := by
  unfold splitFirstComma
  cases h : splitOnceAux ',' s.data with
  | none => simp [(splitOnceAux_eq_none_iff ',' s.data).mp h]
  | some pr =>
    rcases pr with ⟨pre, post⟩
    simp only
    constructor
    · intro hfalse; simp at hfalse
    · intro hnot
      exfalso
      apply hnot
      rw [(splitOnceAux_spec ',' s.data pre post h).1]
      simp

theorem splitFirstComma_spec (s street locality : String)
    (h : splitFirstComma s = some (street, locality)) :
    s.data = street.data ++ ',' :: locality.data ∧ ',' ∉ street.data := by
  unfold splitFirstComma at h
  cases h' : splitOnceAux ',' s.data with
  | none => rw [h'] at h; simp at h
  | some pr =>
    rcases pr with ⟨pre, post⟩
    rw [h'] at h
    simp only [Option.some.injEq, Prod.mk.injEq] at h
    obtain ⟨h1, h2⟩ := h
    subst h1; subst h2
    exact splitOnceAux_spec ',' s.data pre post h'

theorem possibly_strip_city_eq (address street locality : String)
    (h : splitFirstComma address = some (street, locality)) :
    possibly_strip_city address =
      .ok (if strLower (strStrip locality) = "st. louis"
             ∨ strLower (strStrip locality) = "st louis"
             ∨ strLower (strStrip locality) = "saint louis"
           then street else address) := by
  unfold possibly_strip_city
  rw [h]
  dsimp only
  by_cases hcity : strLower (strStrip locality) = "st. louis"
      ∨ strLower (strStrip locality) = "st louis"
      ∨ strLower (strStrip locality) = "saint louis"
  · rw [if_pos hcity, if_pos hcity]
  · rw [if_neg hcity, if_neg hcity]

theorem possibly_strip_city_ok (a : String) (hc : ',' ∈ a.data) :
    ∃ s, possibly_strip_city a = .ok s := by
  cases h : splitFirstComma a with
  | none => exact absurd ((splitFirstComma_none_iff a).mp h) (by simp [hc])
  | some pr =>
    rcases pr with ⟨street, locality⟩
    rw [possibly_strip_city_eq a street locality h]
    exact ⟨_, rfl⟩

theorem possibly_strip_city_error (a : String) (hc : ',' ∉ a.data) :
    possibly_strip_city a =
      .error "ValueError: not enough values to unpack (expected 2, got 1)" := by
  unfold possibly_strip_city
  rw [(splitFirstComma_none_iff a).mpr hc]

theorem format_esri_go_ok (as : List String) :
    ∀ (idx : Nat) (recs : List EsriRecord), format_esri_go idx as = .ok recs →
      recs.length = as.length ∧
      recs.map EsriRecord.objectid = List.range' (idx + 1) as.length := by
  induction as with
  | nil =>
    intro idx recs h
    simp only [format_esri_go, Except.ok.injEq] at h
    subst h; simp
  | cons a rest ih =>
    intro idx recs h
    simp only [format_esri_go] at h
    cases h1 : possibly_strip_city a with
    | error e => rw [h1] at h; simp at h
    | ok s =>
      rw [h1] at h
      cases h2 : format_esri_go (idx + 1) rest with
      | error e => rw [h2] at h; simp at h
      | ok tail =>
        rw [h2] at h
        simp only [Except.ok.injEq] at h
        subst h
        obtain ⟨hlen, hmap⟩ := ih (idx + 1) tail h2
        refine ⟨by simp [hlen], ?_⟩
        simp only [List.map_cons, List.length_cons, List.range'_succ, hmap]

theorem format_esri_go_isOk (as : List String) :
    ∀ idx : Nat, (∀ a ∈ as, ',' ∈ a.data) →
      ∃ recs, format_esri_go idx as = .ok recs := by
  induction as with
  | nil => intro idx _; exact ⟨[], rfl⟩
  | cons a rest ih =>
    intro idx hc
    obtain ⟨s, hs⟩ := possibly_strip_city_ok a (hc a (by simp))
    obtain ⟨tail, ht⟩ := ih (idx + 1) (fun x hx => hc x (by simp [hx]))
    refine ⟨⟨idx + 1, s⟩ :: tail, ?_⟩
    simp only [format_esri_go, hs, ht]

/-- `format_esri_batch` produces one record per address with sequential
1-based `OBJECTID`s. -/
theorem format_esri_batch_ok (addresses : List String) (recs : List EsriRecord)
    (h : format_esri_batch addresses = .ok recs) :
    recs.length = addresses.length ∧
    recs.map EsriRecord.objectid = List.range' 1 addresses.length :=
  format_esri_go_ok addresses 0 recs h

theorem format_esri_batch_isOk (addresses : List String)
    (hc : ∀ a ∈ addresses, ',' ∈ a.data) :
    ∃ recs, format_esri_batch addresses = .ok recs :=
  format_esri_go_isOk addresses 0 hc

/-- Sorting by `ResultID` undoes any permutation of a response list whose
canonical order has strictly increasing identifiers. -/
theorem sortByResultID_restores (locs₀ locs : List EsriLocation)
    (hsorted : locs₀.Pairwise (fun a b => a.resultID < b.resultID))
    (hperm : locs.Perm locs₀) :
    sortByResultID locs = locs₀ := by
  have hperm2 : (sortByResultID locs).Perm locs₀ :=
    (List.perm_insertionSort _ locs).trans hperm
  have hle : (sortByResultID locs).Pairwise (fun a b => a.resultID ≤ b.resultID) := by
    haveI : IsTotal EsriLocation (fun a b => a.resultID ≤ b.resultID) :=
      ⟨fun a b => Nat.le_total a.resultID b.resultID⟩
    haveI : IsTrans EsriLocation (fun a b => a.resultID ≤ b.resultID) :=
      ⟨fun _ _ _ h h' => Nat.le_trans h h'⟩
    exact List.sorted_insertionSort (fun a b : EsriLocation => a.resultID ≤ b.resultID) locs
  have hnodup : ((sortByResultID locs).map EsriLocation.resultID).Nodup := by
    have h0 : (locs₀.map EsriLocation.resultID).Pairwise (· < ·) :=
      List.pairwise_map.mpr hsorted
    have h0' : (locs₀.map EsriLocation.resultID).Nodup :=
      h0.imp (fun h => Nat.ne_of_lt h)
    exact ((hperm2.map EsriLocation.resultID).nodup_iff).mpr h0'
  have hne : (sortByResultID locs).Pairwise (fun a b => a.resultID ≠ b.resultID) :=
    List.pairwise_map.mp hnodup
  have hlt : (sortByResultID locs).Pairwise (fun a b => a.resultID < b.resultID) :=
    (hle.and hne).imp (fun h => Nat.lt_of_le_of_ne h.1 h.2)
  haveI : IsAntisymm EsriLocation (fun a b => a.resultID < b.resultID) :=
    ⟨fun a b h h' => absurd (Nat.lt_trans h h') (Nat.lt_irrefl _)⟩
  exact List.eq_of_perm_of_sorted hperm2 hlt hsorted

/-- The cascade's yielded values, pair by pair. -/
theorem cascade_eq (osm : String → Option OsmEntry) :
    ∀ pairs : List (String × GeocodeResult),
      cascade osm pairs =
        ((pairs.map (fun p => (cascade_pair osm p.1 p.2).1)).flatten,
         pairs.map (fun p => (cascade_pair osm p.1 p.2).2)) := by
  intro pairs
  induction pairs with
  | nil => rfl
  | cons p rest ih =>
    rcases p with ⟨a, r⟩
    simp only [cascade, ih, List.map_cons, List.flatten_cons]

theorem cascade_snd_length (osm : String → Option OsmEntry)
    (pairs : List (String × GeocodeResult)) :
    (cascade osm pairs).2.length = pairs.length := by
  rw [cascade_eq]
  simp

/-- The two sides of the cascade's per-pair policy. -/
theorem cascade_pair_kept (osm : String → Option OsmEntry) (address : String)
    (r : GeocodeResult) (h : r.result_name ≠ "") :
    cascade_pair osm address r = ([], some r) := by
  unfold cascade_pair
  rw [if_neg h]

theorem cascade_pair_fallback (osm : String → Option OsmEntry) (address : String)
    (r : GeocodeResult) (h : r.result_name = "") :
    cascade_pair osm address r =
      ([Ev.osmCall address], geocode_nominatim_single osm address) := by
  unfold cascade_pair
  rw [if_pos h]
  rfl

/-- A batch whose addresses all contain a comma, against a provider whose
response carries one location per submitted record, succeeds and yields
one regional result per address. -/
theorem geocode_stl_batch_run_ok (esri : List EsriRecord → List EsriLocation)
    (b : List String) (hc : ∀ a ∈ b, ',' ∈ a.data)
    (hA : ∀ recs, (esri recs).length = recs.length) :
    ∃ recs, format_esri_batch b = .ok recs ∧
      geocode_stl_batch_run esri b =
        .ok ([Ev.esriCall recs], (sortByResultID (esri recs)).map locToResult) ∧
      ((sortByResultID (esri recs)).map locToResult).length = b.length := by
  obtain ⟨recs, hrecs⟩ := format_esri_batch_isOk b hc
  refine ⟨recs, hrecs, ?_, ?_⟩
  · unfold geocode_stl_batch_run
    rw [hrecs]
  · have hlen := (format_esri_batch_ok b recs hrecs).1
    have hsort : (sortByResultID (esri recs)).length = (esri recs).length :=
      (List.perm_insertionSort _ (esri recs)).length_eq
    simp [hsort, hA recs, hlen]

/-- Running the cascade loop over well-formed batches: it succeeds, the
regional stream has one entry per address, and the emitted values are the
per-pair cascade outcomes of the zipped (address, regional result)
stream. -/
theorem geocode_go_ok (esri : List EsriRecord → List EsriLocation)
    (osm : String → Option OsmEntry)
    (hA : ∀ recs, (esri recs).length = recs.length) :
    ∀ bs : List (List String), (∀ b ∈ bs, ∀ a ∈ b, ',' ∈ a.data) →
      ∃ evs vs sevs rs,
        geocode_go esri osm bs = .ok (evs, vs) ∧
        geocode_stl_go esri bs = .ok (sevs, rs) ∧
        rs.length = bs.flatten.length ∧
        vs = (bs.flatten.zip rs).map (fun p => (cascade_pair osm p.1 p.2).2) := by
  intro bs
  induction bs with
  | nil => exact fun _ => ⟨[], [], [], [], rfl, rfl, by simp, by simp⟩
  | cons b bs ih =>
    intro hc
    obtain ⟨recs, hrecs, hbatch, hlen⟩ :=
      geocode_stl_batch_run_ok esri b (fun a ha => hc b (by simp) a ha) hA
    obtain ⟨evs, vs, sevs, rs, hgo, hsgo, hrslen, hvs⟩ :=
      ih (fun b' hb' => hc b' (by simp [hb']))
    rcases hcas : cascade osm (b.zip ((sortByResultID (esri recs)).map locToResult))
      with ⟨cevs, cvs⟩
    have hb : geocode_batch_run esri osm b = .ok (Ev.esriCall recs :: cevs, cvs) := by
      unfold geocode_batch_run
      rw [hbatch]
      dsimp only
      rw [hcas]
      rfl
    refine ⟨(Ev.esriCall recs :: cevs) ++ evs, cvs ++ vs,
      [Ev.esriCall recs] ++ sevs, ((sortByResultID (esri recs)).map locToResult) ++ rs,
      ?_, ?_, ?_, ?_⟩
    · simp only [geocode_go]
      rw [hb, hgo]
    · simp only [geocode_stl_go]
      rw [hbatch, hsgo]
    · simp only [List.length_append, List.flatten_cons, hlen, hrslen]
    · have hzip : (b ++ bs.flatten).zip (((sortByResultID (esri recs)).map locToResult) ++ rs)
          = b.zip ((sortByResultID (esri recs)).map locToResult) ++ bs.flatten.zip rs :=
        List.zip_append hlen.symm
      have hcv : cvs = (b.zip ((sortByResultID (esri recs)).map locToResult)).map
          (fun p => (cascade_pair osm p.1 p.2).2) := by
        have := cascade_eq osm (b.zip ((sortByResultID (esri recs)).map locToResult))
        rw [hcas] at this
        exact congrArg Prod.snd this
      simp only [List.flatten_cons, hzip, List.map_append, hcv, hvs]

/-- The regional run's event trace is exactly one POST per batch, in batch
order, carrying that batch's formatted records. -/
theorem geocode_stl_go_trace (esri : List EsriRecord → List EsriLocation) :
    ∀ bs : List (List String), (∀ b ∈ bs, ∀ a ∈ b, ',' ∈ a.data) →
      ∃ recss sevs rs,
        List.Forall₂ (fun b recs => format_esri_batch b = .ok recs) bs recss ∧
        geocode_stl_go esri bs = .ok (sevs, rs) ∧
        sevs = recss.map Ev.esriCall ∧
        recss.map List.length = bs.map List.length := by
  intro bs
  induction bs with
  | nil => exact fun _ => ⟨[], [], [], List.Forall₂.nil, rfl, rfl, rfl⟩
  | cons b bs ih =>
    intro hc
    obtain ⟨recs, hrecs⟩ := format_esri_batch_isOk b (fun a ha => hc b (by simp) a ha)
    obtain ⟨recss, sevs, rs, hall, hgo, hsevs, hlens⟩ :=
      ih (fun b' hb' => hc b' (by simp [hb']))
    have hbatch : geocode_stl_batch_run esri b =
        .ok ([Ev.esriCall recs], (sortByResultID (esri recs)).map locToResult) := by
      unfold geocode_stl_batch_run
      rw [hrecs]
    refine ⟨recs :: recss,
      [Ev.esriCall recs] ++ sevs,
      ((sortByResultID (esri recs)).map locToResult) ++ rs,
      List.Forall₂.cons hrecs hall, ?_, ?_, ?_⟩
    · simp only [geocode_stl_go]
      rw [hbatch, hgo]
    · simp [hsevs]
    · simp only [List.map_cons, hlens, (format_esri_batch_ok b recs hrecs).1]

theorem lookup_eq_none_iff (r : Record) (k : String) :
    r.lookup k = none ↔ k ∉ r.keys := by
  induction r with
  | nil => simp [List.lookup, Record.keys]
  | cons p rest ih =>
    rcases p with ⟨k', v⟩
    simp only [List.lookup, Record.keys, List.map_cons, List.mem_cons]
    by_cases hk : k = k'
    · subst hk
      simp
    · have hbeq : (k == k') = false := beq_eq_false_iff_ne.mpr hk
      rw [hbeq]
      simp only [Record.keys] at ih
      simp [ih, hk]

theorem getField_missing (r : Record) (k : String) (h : k ∉ r.keys) :
    getField r k = .error ("KeyError: " ++ k) := by
  unfold getField
  rw [(lookup_eq_none_iff r k).mpr h]

theorem getField_present (r : Record) (k : String) (h : k ∈ r.keys) :
    ∃ v, getField r k = .ok v := by
  unfold getField
  cases hl : r.lookup k with
  | none => exact absurd ((lookup_eq_none_iff r k).mp hl) (by simp [h])
  | some v => exact ⟨v, rfl⟩

/-- The first pass rejects the run as soon as some record carries a
reserved output field. -/
theorem firstPass_error_of_reserved :
    ∀ records : List Record, (∃ r ∈ records, ∃ k ∈ RESERVED_FIELDS, k ∈ r.keys) →
      ∃ msg, firstPass records = .error msg := by
  intro records
  induction records with
  | nil => rintro ⟨r, hr, _⟩; cases hr
  | cons d rest ih =>
    rintro ⟨r, hr, k, hk, hkr⟩
    by_cases hres : RESERVED_FIELDS.any (fun f => f ∈ d.keys)
    · exact ⟨"ValueError: Input data contains reserved fields",
        by simp only [firstPass, if_pos hres]⟩
    · have hrrest : r ∈ rest := by
        rcases List.mem_cons.mp hr with rfl | h
        · exact absurd (List.any_eq_true.mpr ⟨k, hk, by simpa using hkr⟩) hres
        · exact h
      obtain ⟨msg, hmsg⟩ := ih ⟨r, hrrest, k, hk, hkr⟩
      cases hloc : getField d "location" with
      | error e =>
        exact ⟨e, by simp only [firstPass, if_neg hres, hloc]⟩
      | ok v =>
        exact ⟨msg, by simp only [firstPass, if_neg hres, hloc, hmsg]⟩

/-- The first pass raises a `KeyError` at the first record lacking a
`location` field (reserved-field rejection may pre-empt it with its own
error). -/
theorem firstPass_error_of_missing_location :
    ∀ records : List Record, (∃ r ∈ records, "location" ∉ r.keys) →
      ∃ msg, firstPass records = .error msg ∧
        ((∀ r ∈ records, ∀ k ∈ RESERVED_FIELDS, k ∉ r.keys) →
          msg = "KeyError: location") := by
  intro records
  induction records with
  | nil => rintro ⟨r, hr, _⟩; cases hr
  | cons d rest ih =>
    rintro ⟨r, hr, hkr⟩
    by_cases hres : RESERVED_FIELDS.any (fun f => f ∈ d.keys)
    · refine ⟨"ValueError: Input data contains reserved fields",
        by simp only [firstPass, if_pos hres], fun hno => ?_⟩
      obtain ⟨k, hk, hkd⟩ := List.any_eq_true.mp hres
      exact absurd (by simpa using hkd) (hno d (by simp) k hk)
    · by_cases hd : "location" ∈ d.keys
      · have hrrest : r ∈ rest := by
          rcases List.mem_cons.mp hr with rfl | h
          · exact absurd hd hkr
          · exact h
        obtain ⟨v, hv⟩ := getField_present d "location" hd
        obtain ⟨msg, hmsg, hkey⟩ := ih ⟨r, hrrest, hkr⟩
        refine ⟨msg, by simp only [firstPass, if_neg hres, hv, hmsg], fun hno => ?_⟩
        exact hkey (fun r' hr' => hno r' (by simp [hr']))
      · exact ⟨"KeyError: location",
          by simp only [firstPass, if_neg hres, getField_missing d "location" hd]; rfl,
          fun _ => rfl⟩

/-- A first-pass failure is the whole run's failure, for every provider
pair: no geocoding happens. -/
theorem main_run_error_of_firstPass (records : List Record) (msg : String)
    (h : firstPass records = .error msg)
    (esri : List EsriRecord → List EsriLocation) (osm : String → Option OsmEntry) :
    main_run esri osm records = .error msg := by
  unfold main_run
  rw [h]

theorem setField_append (d : Record) (k : String) (v : Jval) (h : k ∉ d.keys) :
    setField d k v = d ++ [(k, v)] := by
  induction d with
  | nil => rfl
  | cons p rest ih =>
    rcases p with ⟨k', v'⟩
    simp only [Record.keys, List.map_cons, List.mem_cons, not_or] at h
    simp only [setField, if_neg (fun e : k' = k => h.1 e.symm)]
    rw [ih (by simpa [Record.keys] using h.2)]
    rfl

/-- With no reserved field present (guaranteed by the first pass), setting
the five reserved fields appends exactly `reservedOf r`. -/
theorem mem_keys_append (k : String) (d e : Record) :
    k ∈ (d ++ e).keys ↔ k ∈ d.keys ∨ k ∈ e.keys := by
  simp [Record.keys]

/-- With no reserved field present (guaranteed by the first pass), setting
the five reserved fields appends exactly `reservedOf r`. -/
theorem apply_result_some (d : Record) (r : GeocodeResult)
    (hres : ∀ k ∈ RESERVED_FIELDS, k ∉ d.keys) :
    apply_result d (some r) = d ++ reservedOf r := by
  have h1 : "lat" ∉ d.keys := hres _ (by simp [RESERVED_FIELDS])
  have h2 : "lon" ∉ d.keys := hres _ (by simp [RESERVED_FIELDS])
  have h3 : "result_name" ∉ d.keys := hres _ (by simp [RESERVED_FIELDS])
  have h4 : "geocode_score" ∉ d.keys := hres _ (by simp [RESERVED_FIELDS])
  have h5 : "geocoder" ∉ d.keys := hres _ (by simp [RESERVED_FIELDS])
  have hk1 : "lon" ∉ (d ++ [("lat", Jval.num r.lat)]).keys := by
    simp only [mem_keys_append, not_or]
    refine ⟨h2, ?_⟩
    simp only [Record.keys, List.map_cons, List.map_nil, List.mem_singleton]
    decide
  have hk2 : "result_name" ∉
      ((d ++ [("lat", Jval.num r.lat)]) ++ [("lon", Jval.num r.lon)]).keys := by
    simp only [mem_keys_append, not_or]
    refine ⟨⟨h3, ?_⟩, ?_⟩ <;>
      · simp only [Record.keys, List.map_cons, List.map_nil, List.mem_singleton]
        decide
  have hk3 : "geocode_score" ∉
      (((d ++ [("lat", Jval.num r.lat)]) ++ [("lon", Jval.num r.lon)])
        ++ [("result_name", Jval.str r.result_name)]).keys := by
    simp only [mem_keys_append, not_or]
    refine ⟨⟨⟨h4, ?_⟩, ?_⟩, ?_⟩ <;>
      · simp only [Record.keys, List.map_cons, List.map_nil, List.mem_singleton]
        decide
  have hk4 : "geocoder" ∉
      ((((d ++ [("lat", Jval.num r.lat)]) ++ [("lon", Jval.num r.lon)])
        ++ [("result_name", Jval.str r.result_name)])
        ++ [("geocode_score", Jval.num r.geocode_score)]).keys := by
    simp only [mem_keys_append, not_or]
    refine ⟨⟨⟨⟨h5, ?_⟩, ?_⟩, ?_⟩, ?_⟩ <;>
      · simp only [Record.keys, List.map_cons, List.map_nil, List.mem_singleton]
        decide
  unfold apply_result
  dsimp only
  rw [setField_append d "lat" (Jval.num r.lat) h1,
      setField_append (d ++ [("lat", Jval.num r.lat)]) "lon" (Jval.num r.lon) hk1,
      setField_append _ "result_name" (Jval.str r.result_name) hk2,
      setField_append _ "geocode_score" (Jval.num r.geocode_score) hk3,
      setField_append _ "geocoder" (Jval.str r.geocoder) hk4]
  simp [reservedOf]

/-- The second pass positionally: a present result appends exactly the five
reserved fields; an absent one leaves the record untouched. -/
theorem merge_results_eq (ds : List Record) :
    ∀ rs : List (Option GeocodeResult), rs.length = ds.length →
      (∀ d ∈ ds, ∀ k ∈ RESERVED_FIELDS, k ∉ d.keys) →
      merge_results ds rs = (ds.zip rs).map
        (fun p => match p.2 with | none => p.1 | some r => p.1 ++ reservedOf r) := by
  induction ds with
  | nil =>
    intro rs hlen _
    have : rs = [] := List.eq_nil_of_length_eq_zero (by simpa using hlen)
    subst this
    rfl
  | cons d ds ih =>
    intro rs hlen hres
    cases rs with
    | nil => simp at hlen
    | cons r rs =>
      simp only [List.length_cons, Nat.succ.injEq] at hlen
      simp only [merge_results, List.zip_cons_cons, List.map_cons]
      congr 1
      · cases r with
        | none => rfl
        | some g => exact apply_result_some d g (hres d (by simp))
      · exact ih rs hlen (fun d' hd' => hres d' (by simp [hd']))

/-! ## Claim theorems -/

/-- C2: for every pair (address, regional result) consumed by the cascade
coordinator: a non-empty matched name makes it emit exactly the regional
result with no global call; an empty matched name makes it perform exactly
one global call for that address and emit that call's (possibly absent)
result.  The third conjunct ties the per-pair policy to the coordinator
loop: the cascade's events and outputs are exactly the per-pair events and
outputs, in order. -/
theorem cascade_per_pair_policy (osm : String → Option OsmEntry) (address : String)
    (r : GeocodeResult) :
    (r.result_name ≠ "" → cascade_pair osm address r = ([], some r)) ∧
    (r.result_name = "" → cascade_pair osm address r =
        ([Ev.osmCall address], geocode_nominatim_single osm address)) ∧
    (∀ pairs : List (String × GeocodeResult),
      cascade osm pairs =
        ((pairs.map (fun p => (cascade_pair osm p.1 p.2).1)).flatten,
         pairs.map (fun p => (cascade_pair osm p.1 p.2).2))) :=
  ⟨cascade_pair_kept osm address r, cascade_pair_fallback osm address r, cascade_eq osm⟩

/-- Witness for C2 at concrete inputs: a matched regional result is kept
verbatim with no events; an empty-named one triggers the single global
lookup. -/
theorem cascade_per_pair_policy_witness :
    cascade_pair osmNone "7 Elm, Springfield" ⟨1, 2, 3, "hit", "stl_esri"⟩ =
      ([], some ⟨1, 2, 3, "hit", "stl_esri"⟩) ∧
    cascade_pair osmNone "7 Elm, Springfield" ⟨0, 0, 0, "", "stl_esri"⟩ =
      ([Ev.osmCall "7 Elm, Springfield"],
        geocode_nominatim_single osmNone "7 Elm, Springfield") :=
  ⟨(cascade_per_pair_policy osmNone "7 Elm, Springfield" ⟨1, 2, 3, "hit", "stl_esri"⟩).1
      (by decide),
   (cascade_per_pair_policy osmNone "7 Elm, Springfield" ⟨0, 0, 0, "", "stl_esri"⟩).2.1 rfl⟩

/-- C4: the regional batch request carries sequential 1-based `OBJECTID`s
(restarting at 1 for each batch, since `format_esri_batch` enumerates each
batch from scratch), and sorting by the response-embedded `ResultID`
restores the original batch order from any permutation of the response
list. -/
theorem esri_objectids_sequential_and_sort_restores :
    (∀ (addresses : List String) (recs : List EsriRecord),
        format_esri_batch addresses = .ok recs →
        recs.length = addresses.length ∧
        recs.map EsriRecord.objectid = List.range' 1 addresses.length) ∧
    (∀ (locs₀ locs : List EsriLocation),
        locs₀.Pairwise (fun a b => a.resultID < b.resultID) → locs.Perm locs₀ →
        sortByResultID locs = locs₀) :=
  ⟨format_esri_batch_ok, sortByResultID_restores⟩

/-- Witness for C4: a two-address batch gets `OBJECTID`s `[1, 2]`, and a
reversed three-element response is restored to identifier order. -/
theorem esri_objectids_sequential_and_sort_restores_witness :
    ([⟨1, "5 A"⟩, ⟨2, "6 B, x"⟩] : List EsriRecord).map EsriRecord.objectid =
        List.range' 1 2 ∧
    sortByResultID [⟨3, 0, 0, 0, "c"⟩, ⟨2, 0, 0, 0, "b"⟩, ⟨1, 0, 0, 0, "a"⟩] =
        [⟨1, 0, 0, 0, "a"⟩, ⟨2, 0, 0, 0, "b"⟩, ⟨3, 0, 0, 0, "c"⟩] :=
  ⟨(esri_objectids_sequential_and_sort_restores.1 ["5 A, st louis", "6 B, x"]
      [⟨1, "5 A"⟩, ⟨2, "6 B, x"⟩] (by decide)).2,
   esri_objectids_sequential_and_sort_restores.2
      [⟨1, 0, 0, 0, "a"⟩, ⟨2, 0, 0, 0, "b"⟩, ⟨3, 0, 0, 0, "c"⟩]
      [⟨3, 0, 0, 0, "c"⟩, ⟨2, 0, 0, 0, "b"⟩, ⟨1, 0, 0, 0, "a"⟩]
      (by decide) (by decide)⟩

/-- C7: an address containing a comma is split at its first comma into
(street, locality); when the stripped, lowercased locality is one of the
three St. Louis spellings only the street part is returned, otherwise the
address is returned unchanged; with the four concrete examples of the
spec. -/
theorem normalizer_strips_stl_city :
    (∀ (address street locality : String),
        splitFirstComma address = some (street, locality) →
        address.data = street.data ++ ',' :: locality.data ∧ ',' ∉ street.data ∧
        possibly_strip_city address =
          .ok (if strLower (strStrip locality) = "st. louis"
                 ∨ strLower (strStrip locality) = "st louis"
                 ∨ strLower (strStrip locality) = "saint louis"
               then street else address)) ∧
    possibly_strip_city "123 Main St, St. Louis" = .ok "123 Main St" ∧
    possibly_strip_city "123 Main St, St Louis" = .ok "123 Main St" ∧
    possibly_strip_city "123 Main St, Saint Louis" = .ok "123 Main St" ∧
    possibly_strip_city "123 Main St, Springfield" = .ok "123 Main St, Springfield" := by
  refine ⟨fun address street locality h => ?_, by decide, by decide, by decide, by decide⟩
  obtain ⟨hdata, hnot⟩ := splitFirstComma_spec address street locality h
  exact ⟨hdata, hnot, possibly_strip_city_eq address street locality h⟩

/-- Witness for C7 at a concrete split. -/
theorem normalizer_strips_stl_city_witness :
    "9 Oak, st louis".data = "9 Oak".data ++ ',' :: " st louis".data ∧
    ',' ∉ "9 Oak".data ∧
    possibly_strip_city "9 Oak, st louis" =
      .ok (if strLower (strStrip " st louis") = "st. louis"
             ∨ strLower (strStrip " st louis") = "st louis"
             ∨ strLower (strStrip " st louis") = "saint louis"
           then "9 Oak" else "9 Oak, st louis") :=
  normalizer_strips_stl_city.1 "9 Oak, st louis" "9 Oak" " st louis" (by decide)

/-- C8: the second pass keeps the records in original order and length;
each record whose result is present becomes the original record with
exactly the five reserved fields appended (original fields and their
values untouched), and each record whose result is absent is passed
through completely unmodified. -/
theorem merge_preserves_records (ds : List Record) (rs : List (Option GeocodeResult))
    (hlen : rs.length = ds.length)
    (hres : ∀ d ∈ ds, ∀ k ∈ RESERVED_FIELDS, k ∉ d.keys) :
    (merge_results ds rs).length = ds.length ∧
    merge_results ds rs = (ds.zip rs).map
      (fun p => match p.2 with | none => p.1 | some r => p.1 ++ reservedOf r) := by
  have heq := merge_results_eq ds rs hlen hres
  refine ⟨?_, heq⟩
  rw [heq]
  simp [List.length_zip, hlen]

/-- Witness for C8: one enriched record (fields appended) and one
passed-through record. -/
theorem merge_preserves_records_witness :
    (merge_results
        [[("location", Jval.str "1 A, x"), ("name", Jval.str "Cafe")],
         [("location", Jval.str "2 B, x")]]
        [some ⟨1, 2, 3, "one", "stl_esri"⟩, none]).length = 2 ∧
    merge_results
        [[("location", Jval.str "1 A, x"), ("name", Jval.str "Cafe")],
         [("location", Jval.str "2 B, x")]]
        [some ⟨1, 2, 3, "one", "stl_esri"⟩, none] =
      (([[("location", Jval.str "1 A, x"), ("name", Jval.str "Cafe")],
         [("location", Jval.str "2 B, x")]] : List Record).zip
          [some ⟨1, 2, 3, "one", "stl_esri"⟩, none]).map
        (fun p => match p.2 with | none => p.1 | some r => p.1 ++ reservedOf r) :=
  merge_preserves_records
    [[("location", Jval.str "1 A, x"), ("name", Jval.str "Cafe")],
     [("location", Jval.str "2 B, x")]]
    [some ⟨1, 2, 3, "one", "stl_esri"⟩, none] (by decide) (by decide)

/-- C9: an address string without a comma makes the normalizer raise (the
two-target unpacking of `split(",", 1)` fails) instead of passing the
address through. -/
theorem normalizer_rejects_comma_free (address : String) (h : ',' ∉ address.data) :
    possibly_strip_city address =
      .error "ValueError: not enough values to unpack (expected 2, got 1)" :=
  possibly_strip_city_error address h

/-- Witness for C9 at a concrete comma-free address. -/
theorem normalizer_rejects_comma_free_witness :
    possibly_strip_city "123 Main St" =
      .error "ValueError: not enough values to unpack (expected 2, got 1)" :=
  normalizer_rejects_comma_free "123 Main St" (by decide)

/-- C6: a record already carrying any reserved output field makes the run
fail during the first (validation/collection) pass, with the same error
whatever the providers do — i.e. before any geocoding call is made. -/
theorem reserved_field_rejected_before_geocoding (records : List Record)
    (h : ∃ r ∈ records, ∃ k ∈ RESERVED_FIELDS, k ∈ Record.keys r) :
    ∃ msg, firstPass records = .error msg ∧
      ∀ esri osm, main_run esri osm records = .error msg := by
  obtain ⟨msg, hmsg⟩ := firstPass_error_of_reserved records h
  exact ⟨msg, hmsg, fun esri osm => main_run_error_of_firstPass records msg hmsg esri osm⟩

/-- Witness for C6 at the spec's concrete record
`{"location": "1 Main St", "lat": 0}`. -/
theorem reserved_field_rejected_before_geocoding_witness :
    ∃ msg, firstPass [[("location", Jval.str "1 Main St"), ("lat", Jval.num 0)]]
        = .error msg ∧
      ∀ esri osm, main_run esri osm
        [[("location", Jval.str "1 Main St"), ("lat", Jval.num 0)]] = .error msg :=
  reserved_field_rejected_before_geocoding
    [[("location", Jval.str "1 Main St"), ("lat", Jval.num 0)]] (by decide)

/-- C10: a record lacking the `location` field aborts the run during the
first pass, for every provider pair (so before any geocoding or network
activity); when no record trips the reserved-field check first, the error
is precisely the key-lookup failure `KeyError: location`. -/
theorem missing_location_aborts_before_geocoding (records : List Record)
    (h : ∃ r ∈ records, "location" ∉ Record.keys r) :
    ∃ msg, firstPass records = .error msg ∧
      (∀ esri osm, main_run esri osm records = .error msg) ∧
      ((∀ r ∈ records, ∀ k ∈ RESERVED_FIELDS, k ∉ Record.keys r) →
        msg = "KeyError: location") := by
  obtain ⟨msg, hmsg, hkey⟩ := firstPass_error_of_missing_location records h
  exact ⟨msg, hmsg,
    fun esri osm => main_run_error_of_firstPass records msg hmsg esri osm, hkey⟩

/-- Witness for C10 at a concrete record with no `location` field. -/
theorem missing_location_aborts_before_geocoding_witness :
    ∃ msg, firstPass [[("name", Jval.str "Cafe")]] = .error msg ∧
      (∀ esri osm, main_run esri osm [[("name", Jval.str "Cafe")]] = .error msg) ∧
      ((∀ r ∈ ([[("name", Jval.str "Cafe")]] : List Record),
          ∀ k ∈ RESERVED_FIELDS, k ∉ Record.keys r) →
        msg = "KeyError: location") :=
  missing_location_aborts_before_geocoding [[("name", Jval.str "Cafe")]] (by decide)

/-- C1 (counterexample): quantified over *every* input address sequence
with only the one-location-per-record precondition on the regional
provider, the claim fails — an address with no comma makes `geocode` raise
inside request formatting before emitting any result, so no output of the
input's length exists. -/
theorem geocode_length_claim_counterexample :
    ¬ (∀ (esri : List EsriRecord → List EsriLocation) (osm : String → Option OsmEntry)
        (addresses : List String),
        (∀ recs, (esri recs).length = recs.length) →
        ∃ out, geocode_run esri osm addresses = .ok out ∧
          out.2.length = addresses.length) := by
  intro h
  obtain ⟨out, hok, _⟩ := h esriNoMatch osmNone ["123 Main St"]
    (fun recs => by simp [esriNoMatch])
  have he : geocode_run esriNoMatch osmNone ["123 Main St"] =
      .error "ValueError: not enough values to unpack (expected 2, got 1)" := by decide
  rw [he] at hok
  exact Except.noConfusion hok

/-- C1 (amended): for every input address sequence whose addresses all
contain a comma (the normalizer's input contract), under the precondition
that each regional batch call returns exactly one location entry per
submitted address, `geocode` emits exactly one (possibly `none`) result
per input address, the result at position i being the cascade outcome of
the address and regional result at position i. -/
theorem geocode_emits_one_result_per_address
    (esri : List EsriRecord → List EsriLocation) (osm : String → Option OsmEntry)
    (addresses : List String)
    (hA : ∀ recs, (esri recs).length = recs.length)
    (hcomma : ∀ a ∈ addresses, ',' ∈ a.data) :
    ∃ evs vs sevs rs,
      geocode_run esri osm addresses = .ok (evs, vs) ∧
      geocode_stl_run esri addresses = .ok (sevs, rs) ∧
      vs.length = addresses.length ∧
      vs = (addresses.zip rs).map (fun p => (cascade_pair osm p.1 p.2).2) := by
  obtain ⟨evs, vs, sevs, rs, hgo, hsgo, hrslen, hvs⟩ :=
    geocode_go_ok esri osm hA (batched 100 addresses)
      (fun b hb a ha => hcomma a (by
        rw [← batched_flatten 100 addresses]
        exact List.mem_flatten.mpr ⟨b, hb, ha⟩))
  rw [batched_flatten 100 addresses] at hrslen hvs
  refine ⟨evs, vs, sevs, rs, hgo, hsgo, ?_, hvs⟩
  rw [hvs]
  simp [List.length_zip, hrslen]

/-- Witness for the amended C1 at a one-address input. -/
theorem geocode_emits_one_result_per_address_witness :
    ∃ evs vs sevs rs,
      geocode_run esriNoMatch osmNone ["1 Main St, Springfield"] = .ok (evs, vs) ∧
      geocode_stl_run esriNoMatch ["1 Main St, Springfield"] = .ok (sevs, rs) ∧
      vs.length = 1 ∧
      vs = ((["1 Main St, Springfield"].zip rs).map
        (fun p => (cascade_pair osmNone p.1 p.2).2)) :=
  geocode_emits_one_result_per_address esriNoMatch osmNone ["1 Main St, Springfield"]
    (fun recs => by simp [esriNoMatch]) (by decide)

/-- C3 (code evaluated at the failing input): with both regional matches
empty, the cascade's fallback path performs the two Nominatim requests
back to back — the run's whole event trace contains no sleep at all,
because `next(geocode_nominatim([address]))` suspends the generator at its
first `yield`, before the `time.sleep(1)` line.  The last conjunct shows
the contrast: fully iterating `geocode_nominatim_batch` over the same
addresses would interleave a sleep after each request. -/
theorem nominatim_fallback_skips_sleep :
    geocode_run esriNoMatch osmNone ["1 A St, Springfield", "2 B St, Springfield"] =
      .ok ([Ev.esriCall [⟨1, "1 A St, Springfield"⟩, ⟨2, "2 B St, Springfield"⟩],
            Ev.osmCall "1 A St, Springfield", Ev.osmCall "2 B St, Springfield"],
           [none, none]) ∧
    Ev.sleep ∉ ([Ev.esriCall [⟨1, "1 A St, Springfield"⟩, ⟨2, "2 B St, Springfield"⟩],
            Ev.osmCall "1 A St, Springfield", Ev.osmCall "2 B St, Springfield"] : List Ev) ∧
    nominatim_batch_runAll osmNone ["1 A St, Springfield", "2 B St, Springfield"] =
      ([Ev.osmCall "1 A St, Springfield", Ev.sleep,
        Ev.osmCall "2 B St, Springfield", Ev.sleep], [none, none]) :=
  ⟨by decide, by decide, by decide⟩

/-- C5 (counterexample): quantified over *every* 250-address input, the
claim fails — 250 comma-free addresses make the first batch's request
formatting raise, so zero provider calls occur instead of three. -/
theorem stl_batching_claim_counterexample :
    ¬ (∀ (esri : List EsriRecord → List EsriLocation) (addresses : List String),
        addresses.length = 250 →
        ∃ out, geocode_stl_run esri addresses = .ok out ∧ out.1.length = 3) := by
  intro h
  obtain ⟨out, hok, _⟩ := h esriNoMatch (List.replicate 250 "Main St") (List.length_replicate 250 "Main St")
  have he : geocode_stl_run esriNoMatch (List.replicate 250 "Main St") =
      .error "ValueError: not enough values to unpack (expected 2, got 1)" := by
    set_option maxRecDepth 4000 in decide
  rw [he] at hok
  exact Except.noConfusion hok

/-- C5 (amended): for addresses that satisfy the normalizer's comma
contract, the regional run partitions the input into consecutive batches
of at most 100 covering it exactly, performs exactly one provider call per
batch, strictly in batch order, each call carrying one record per address
of its batch; and a 250-address input yields exactly the batch sizes
[100, 100, 50]. -/
theorem stl_batching_partitions (esri : List EsriRecord → List EsriLocation)
    (addresses : List String) (hcomma : ∀ a ∈ addresses, ',' ∈ a.data) :
    ((batched 100 addresses).flatten = addresses ∧
      ∀ b ∈ batched 100 addresses, b.length ≤ 100) ∧
    (∃ recss sevs rs,
        List.Forall₂ (fun b recs => format_esri_batch b = .ok recs)
          (batched 100 addresses) recss ∧
        geocode_stl_run esri addresses = .ok (sevs, rs) ∧
        sevs = recss.map Ev.esriCall ∧
        recss.map List.length = (batched 100 addresses).map List.length) ∧
    (addresses.length = 250 → (batched 100 addresses).map List.length = [100, 100, 50]) := by
  refine ⟨⟨batched_flatten 100 addresses, batched_length_le 100 (by omega) addresses⟩,
    ?_, batched_250 addresses⟩
  obtain ⟨recss, sevs, rs, hall, hgo, hsevs, hlens⟩ :=
    geocode_stl_go_trace esri (batched 100 addresses)
      (fun b hb a ha => hcomma a (by
        rw [← batched_flatten 100 addresses]
        exact List.mem_flatten.mpr ⟨b, hb, ha⟩))
  exact ⟨recss, sevs, rs, hall, hgo, hsevs, hlens⟩

/-- Witness for the amended C5 at a concrete 250-address input. -/
theorem stl_batching_partitions_witness :
    (batched 100 (List.replicate 250 "1 Main St, Springfield")).flatten
        = List.replicate 250 "1 Main St, Springfield" ∧
    (batched 100 (List.replicate 250 "1 Main St, Springfield")).map List.length
        = [100, 100, 50] := by
  have h := stl_batching_partitions esriNoMatch
    (List.replicate 250 "1 Main St, Springfield")
    (by set_option maxRecDepth 4000 in decide)
  exact ⟨h.1.1, h.2.2 (List.length_replicate 250 "1 Main St, Springfield")⟩
